import Mathlib

/-!
Verification development for the beverage sales intelligence pipeline
(`pipeline/sales_pipeline.py`).

The Python source is shallowly embedded: pure functions become Lean
functions over `List Char` / `String`, timestamps become rational day
counts, Python dicts become association-style lookups with defaults,
and the float arithmetic of the scoring stage is idealized over `ℝ`
(with the final `round(x, 4)` modelled as rounding to 4 decimal places;
Python uses round-half-even on doubles, which differs from `round` only
on exact half-way ties, none of which occur at the inputs considered
here).
-/

namespace SalesPipeline

/-! ### String utilities

Python string primitives used by the pipeline (`in`, `.lower()`,
`.strip()`), modelled on `List Char`.  `Char.toLower` handles the ASCII
range, which covers every keyword table in the source.
-/

/-- Substring containment, the semantics of Python's `needle in hay`.
The empty needle is contained in everything. -/
def strContains (hay needle : List Char) : Bool :=
  (List.range (hay.length + 1)).any fun i => needle.isPrefixOf (hay.drop i)

/-- Lower-case every character, the semantics of Python's `str.lower`
on ASCII text. -/
def lowerChars (l : List Char) : List Char :=
  l.map Char.toLower

/-- Strip leading and trailing whitespace, the semantics of Python's
`str.strip()` on the whitespace characters that occur in feeds. -/
def trimChars (l : List Char) : List Char :=
  ((l.dropWhile Char.isWhitespace).reverse.dropWhile Char.isWhitespace).reverse

/-- Lookup in an association list with a default, the semantics of
Python's `dict.get(key, default)`. -/
def lookupD {α β : Type} [DecidableEq α] (l : List (α × β)) (k : α) (d : β) : β :=
  match l.find? (fun p => decide (p.1 = k)) with
  | some p => p.2
  | none => d

/-! ### Configuration tables (`REGIONS`, keyword lists) -/

/-- Region definition record, from the `REGIONS` table. -/
structure RegionDef where
  name : String := ""
  currency : String := ""
  keywords : List String := []
  negative : List String := []
deriving DecidableEq

/-- The `REGIONS` dict of the source, in insertion order. -/
def REGIONS : List (String × RegionDef) :=
  [ ("usa",
     { name := "United States", currency := "USD",
       keywords := ["usa", "united states", "u.s.", "american", "fda",
                    "north america", "us market"],
       negative := ["australian", "austria"] }),
    ("germany",
     { name := "Germany", currency := "EUR",
       keywords := ["germany", "german", "deutschland", "dach",
                    "bundesrat", "lebensmittel"],
       negative := [] }),
    ("france",
     { name := "France", currency := "EUR",
       keywords := ["france", "french", "francais", "egalim",
                    "leclerc", "carrefour"],
       negative := [] }),
    ("spain",
     { name := "Spain", currency := "EUR",
       keywords := ["spain", "spanish", "espana", "madrid",
                    "barcelona", "mercadona", "catalonia"],
       negative := [] }),
    ("italy",
     { name := "Italy", currency := "EUR",
       keywords := ["italy", "italian", "italia", "milan",
                    "rome", "aperitivo", "esselunga"],
       negative := [] }),
    ("austria",
     { name := "Austria", currency := "EUR",
       keywords := ["austria", "austrian", "wien", "vienna",
                    "spar austria", "hofer", "alnatura", "pfand"],
       negative := ["australia"] }) ]

/-- The keys of the `REGIONS` dict. -/
def REGION_IDS : List String :=
  REGIONS.map (·.1)

/-- The `BEVERAGE_KEYWORDS` inclusion vocabulary. -/
def BEVERAGE_KEYWORDS : List String :=
  [ "beverage", "drink", "juice", "soft drink", "energy drink", "smoothie",
    "water", "tea", "coffee", "rtd", "ready to drink", "functional",
    "carbonat", "sparkling", "soda", "seltzer", "tonic",
    "boisson", "bebida", "getraenk", "succo", "saft", "jus",
    "launch", "new product", "innovation",
    "sugar tax", "nutri-score", "packaging", "regulation", "labelling",
    "price", "pricing", "commodity", "concentrate",
    "probiotic", "prebiotic", "adaptogen", "nootropic",
    "protein drink", "collagen", "electrolyte",
    "non-alcoholic", "alcohol-free", "zero alcohol", "low alcohol",
    "kombucha", "kefir", "fermented" ]

/-- The `EXCLUSIONS` off-topic vocabulary. -/
def EXCLUSIONS : List String :=
  [ "cryptocurrency", "bitcoin", "stock market", "nasdaq", "nyse",
    "real estate", "mortgage", "auto loan", "car insurance",
    "celebrity gossip", "sports score", "football result",
    "recipe ", "cooking tip", "how to make", "diy ",
    "raspberry pi", "python programming", "javascript" ]

/-- The relevance filter `is_beverage_relevant`: any exclusion hit is an
absolute reject, otherwise accept iff some inclusion keyword occurs. -/
def isBeverageRelevant (text : String) : Bool :=
  let t := lowerChars text.data
  if EXCLUSIONS.any (fun ex => strContains t ex.data) then false
  else BEVERAGE_KEYWORDS.any (fun kw => strContains t kw.data)

/-- The ordered `CATEGORY_RULES` table. -/
def CATEGORY_RULES : List (String × List String) :=
  [ ("regulatory", ["regulation", "regulat", "law", "directive", "tax", "ban", "label",
                    "nutri-score", "ppwr", "egalim", "fda", "efsa", "recall", "compliance"]),
    ("pricing", ["price", "cost", "inflation", "commodity", "margin", "tariff",
                 "import cost", "promotion", "discount", "cheaper", "expensive"]),
    ("launch", ["launch", "new product", "new range", "introduces", "unveil", "debut",
                "release", "rolls out", "enters market", "expands"]),
    ("competitor", ["acquisition", "acquire", "merger", "m&a", "takeover", "partnership",
                    "joint venture", "restructur", "layoff", "appoint"]),
    ("supply_chain", ["supply chain", "shortage", "logistics", "packaging", "aluminum",
                      "pet resin", "glass", "can ", "bottle", "recycl", "pcr"]),
    ("retail", ["retail", "supermarket", "hypermarket", "convenience", "shelf space",
                "private label", "store brand", "e-commerce", "online retail"]),
    ("innovation", ["innovation", "patent", "r&d", "research", "technology", "formula",
                    "ingredient", "functional", "probiotic", "adaptogen"]),
    ("trend", ["trend", "consumer", "demand", "growth", "market", "insight",
               "report", "forecast", "wellness", "health"]),
    ("macro", ["gdp", "economy", "inflation", "interest rate", "consumer spending",
               "market size", "industry"]) ]

/-- The category classifier `detect_category`: first rule with a keyword
hit wins, default `"trend"`. -/
def detectCategory (text : String) : String :=
  let t := lowerChars text.data
  match CATEGORY_RULES.find? (fun rule => rule.2.any fun kw => strContains t kw.data) with
  | some rule => rule.1
  | none => "trend"

/-! ### Region assignment (`assign_region`) -/

/-- The keyword-matching pass of `assign_region`: a region matches when
no negative keyword occurs and some positive keyword occurs. -/
def matchedRegions (text : String) : List String :=
  let t := lowerChars text.data
  (REGIONS.filter fun p =>
      (!(p.2.negative.any fun neg => strContains t neg.data))
        && (p.2.keywords.any fun kw => strContains t kw.data)).map (·.1)

/-- The full `assign_region`: keyword matches, else a non-global feed's
declared regions restricted to configured ones, else `["global"]`. -/
def assignRegion (text : String) (feedRegions : List String) : List String :=
  let matched := matchedRegions text
  let matched :=
    if matched = [] ∧ feedRegions ≠ ["global"] then
      feedRegions.filter fun r => REGIONS.any fun p => decide (p.1 = r)
    else matched
  if matched = [] then ["global"] else matched

/-! ### Articles and the enrichment step

Articles are the dict records flowing through the pipeline; timestamps
are modelled as rational day counts (the code stores timezone-aware
datetimes and compares/subtracts them, which respects this order
embedding).  Fields that no claim touches (entities, product tags,
why-it-matters templates) are omitted.
-/

/-- An article record as mutated through steps 2-4 of `run_pipeline`.
All fields default so that concrete test articles stay terse. -/
structure Article where
  title : String := ""
  url : String := ""
  summary : String := ""
  published : ℚ := 0
  source : String := ""
  tier : Nat := 4
  feedRegions : List String := []
  category : String := ""
  assignedRegions : List String := []
  regionMatch : String := ""
  confidence : String := ""
  score : ℚ := 0
deriving DecidableEq

/-- The text the pipeline classifies on: `f"{title} {summary}"`. -/
def articleText (a : Article) : String :=
  a.title ++ " " ++ a.summary

/-- Step 3 of `run_pipeline`: set category and assigned regions. -/
def enrichStep (a : Article) : Article :=
  { a with
      category := detectCategory (articleText a),
      assignedRegions := assignRegion (articleText a) a.feedRegions }

/-- Step 4's bucket construction: each assigned region id that is a key
of `region_articles` (a configured region) receives the article;
anything else — including the "global" sentinel — is appended to the
separate `global_articles` list, which the rest of `run_pipeline` never
reads. -/
def bucketize (relevant : List Article) : (String → List Article) × List Article :=
  relevant.foldl
    (fun acc a =>
      a.assignedRegions.foldl
        (fun acc2 r =>
          if REGIONS.any (fun p => decide (p.1 = r)) then
            ((fun x => if x = r then acc2.1 x ++ [a] else acc2.1 x), acc2.2)
          else
            (acc2.1, acc2.2 ++ [a]))
        acc)
    ((fun _ => []), [])

/-! ### URL normalization and title similarity (`normalize_url`, `deduplicate`)

`normalize_url` runs the URL through `urlparse`/`urlunparse`, keeping
scheme, host and path, stripping trailing slashes from the path and
discarding query and fragment.  For URLs with a lower-case scheme this
equals: cut at the first `#`, cut at the first `?`, strip trailing
slashes — which is the embedding below.

Title similarity is difflib's `SequenceMatcher.ratio`: recursively take
the longest matching block (maximal length, then earliest start in the
first string, then earliest in the second) and sum the matched
characters; the ratio is `2*M/T` over the total length `T`, computed
here as an exact rational (the float comparison `> 0.8` in the source
agrees with the exact comparison for all feasible title lengths).  The
autojunk heuristic, which only activates for second strings of 200+
characters, is not modelled.
-/

/-- Cut at the first `#`, cut at the first `?`, strip trailing slashes:
the observable behaviour of `normalize_url` on well-formed URLs. -/
def normalizeUrl (url : String) : String :=
  let noFrag := url.data.takeWhile fun c => !(c == '#')
  let noQuery := noFrag.takeWhile fun c => !(c == '?')
  String.mk (noQuery.reverse.dropWhile fun c => c == '/').reverse

/-- Length of the run of equal characters at the heads of two lists. -/
def commonRunLen : List Char → List Char → Nat
  | a :: as, b :: bs => if a = b then commonRunLen as bs + 1 else 0
  | _, _ => 0

/-- difflib's longest matching block `(i, j, size)`: maximal size, ties
broken by the earliest start in `a`, then the earliest start in `b`. -/
def longestMatch (a b : List Char) : Nat × Nat × Nat :=
  (List.range a.length).foldl
    (fun best i =>
      (List.range b.length).foldl
        (fun cur j =>
          let k := commonRunLen (a.drop i) (b.drop j)
          if k > cur.2.2 then (i, j, k) else cur)
        best)
    (0, 0, 0)

/-- Total matched characters of difflib's matching-block recursion; the
fuel only bounds the recursion depth and `|a| + |b|` always suffices. -/
def matchesGo : Nat → List Char → List Char → Nat
  | 0, _, _ => 0
  | fuel + 1, a, b =>
    let lm := longestMatch a b
    if lm.2.2 = 0 then 0
    else
      lm.2.2 + matchesGo fuel (a.take lm.1) (b.take lm.2.1)
        + matchesGo fuel (a.drop (lm.1 + lm.2.2)) (b.drop (lm.2.1 + lm.2.2))

/-- Total matched characters between two character lists. -/
def matchesTotal (a b : List Char) : Nat :=
  matchesGo (a.length + b.length) a b

/-- `SequenceMatcher(None, a, b).ratio()` as an exact rational: `2*M/T`,
and 1 when both strings are empty. -/
def titleSimilarity (a b : List Char) : ℚ :=
  if a.length + b.length = 0 then 1
  else (2 * matchesTotal a b : ℚ) / ((a.length + b.length : Nat) : ℚ)

/-- The lower-cased, stripped title compared by `deduplicate`. -/
def titleKey (a : Article) : List Char :=
  trimChars (lowerChars a.title.data)

/-- The loop of `deduplicate`.  Exactly as in the source, a new
article's normalized URL is registered in `seen_urls` before the
title-similarity check, so a title-rejected article still blocks its
URL; accepted titles are appended to `seen_titles`. -/
def dedupGo : List Article → List String → List (List Char) → List Article
  | [], _, _ => []
  | a :: rest, seenUrls, seenTitles =>
    if normalizeUrl a.url ∈ seenUrls then
      dedupGo rest seenUrls seenTitles
    else if ∃ prev ∈ seenTitles, (4 : ℚ) / 5 < titleSimilarity (titleKey a) prev then
      dedupGo rest (normalizeUrl a.url :: seenUrls) seenTitles
    else
      a :: dedupGo rest (normalizeUrl a.url :: seenUrls) (seenTitles ++ [titleKey a])

/-- `deduplicate`: first-seen-wins URL and near-duplicate-title pass. -/
def deduplicate (articles : List Article) : List Article :=
  dedupGo articles [] []

/-! ### Time window selection and per-article labels -/

/-- Primary lookback window in days (`WINDOW_DAYS`). -/
def WINDOW_DAYS : ℚ := 28

/-- Fallback lookback window in days (`FALLBACK_DAYS`). -/
def FALLBACK_DAYS : ℚ := 42

/-- Minimum items before the fallback window kicks in (`MIN_ITEMS`). -/
def MIN_ITEMS : Nat := 10

/-- Primary cutoff `NOW - 28 days`, with `now` a day-count parameter. -/
def CUTOFF (now : ℚ) : ℚ := now - WINDOW_DAYS

/-- Fallback cutoff `NOW - 42 days`. -/
def FALLBACK_CUTOFF (now : ℚ) : ℚ := now - FALLBACK_DAYS

/-- The window step of `run_pipeline`: keep the primary-window articles,
or — when they number fewer than `MIN_ITEMS` — the fallback-window
articles, flagging that the fallback was used. -/
def windowSelect (now : ℚ) (articles : List Article) : List Article × Bool :=
  let inWindow := articles.filter fun a => decide (CUTOFF now ≤ a.published)
  if inWindow.length < MIN_ITEMS then
    (articles.filter fun a => decide (FALLBACK_CUTOFF now ≤ a.published), true)
  else (inWindow, false)

/-- Number of the region's positive keywords occurring in the
lower-cased text, the `strong` count of `run_pipeline`. -/
def regionHits (rid : String) (text : String) : Nat :=
  ((lookupD REGIONS rid {}).keywords.filter fun kw =>
    strContains (lowerChars text.data) kw.data).length

/-- Region-match strength: "high" at 2 or more positive-keyword hits,
"medium" at exactly 1, "low" at 0. -/
def regionStrength (rid : String) (text : String) : String :=
  if regionHits rid text ≥ 2 then "high"
  else if regionHits rid text ≥ 1 then "medium"
  else "low"

/-- The confidence expression of `run_pipeline`: "high" if published in
the primary window with non-low strength, else "low" if the fallback
window was used, else "medium". -/
def confidenceLabel (now pub : ℚ) (strength : String) (usedFallback : Bool) : String :=
  if CUTOFF now ≤ pub ∧ (strength = "high" ∨ strength = "medium") then "high"
  else if usedFallback then "low"
  else "medium"

/-! ### Ordering and output cap -/

/-- The comparison of `in_window.sort(key=lambda x: x["score"], reverse=True)`.
`List.insertionSort` with this relation inserts each earlier element
before later elements of equal score, which is exactly a stable
descending sort — the behaviour of Python's stable `list.sort`. -/
def scoreDescRel (x y : Article) : Prop := y.score ≤ x.score

instance : DecidableRel scoreDescRel :=
  fun x y => inferInstanceAs (Decidable (y.score ≤ x.score))

instance : IsTotal Article scoreDescRel :=
  ⟨fun a b => le_total b.score a.score⟩

instance : IsTrans Article scoreDescRel :=
  ⟨fun _ _ _ h1 h2 => le_trans h2 h1⟩

/-- The sort-and-cap step: stable descending sort by score, then the
first 50 articles (`in_window[:50]`). -/
def sortScoreCap (l : List Article) : List Article :=
  (l.insertionSort scoreDescRel).take 50

/-! ### Composite scoring (`score_article`)

The float arithmetic of `score_article` is idealized over `ℝ`:
`math.exp` becomes `Real.exp`, and Python's `round(x, 4)` becomes
rounding to the nearest ten-thousandth (Python rounds doubles half to
even, which differs only on exact half-way ties; none occur at the
inputs considered here).  The article's rational day-count timestamp is
cast into `ℝ` for the age computation.
-/

/-- The `CATEGORY_PRIORITY` weight with the `.get(category, 0.5)`
default (an article with no category rules hit still carries "trend"). -/
def categoryPriority (c : String) : ℚ :=
  if c = "regulatory" then 1
  else if c = "pricing" then 9 / 10
  else if c = "launch" then 17 / 20
  else if c = "competitor" then 4 / 5
  else if c = "supply_chain" then 7 / 10
  else if c = "retail" then 13 / 20
  else if c = "innovation" then 3 / 5
  else if c = "trend" then 1 / 2
  else if c = "macro" then 2 / 5
  else 1 / 2

/-- The `SOURCE_RELIABILITY` weight with the `.get(tier, 0.5)` default. -/
def sourceReliability (t : Nat) : ℚ :=
  if t = 1 then 1
  else if t = 2 then 19 / 20
  else if t = 3 then 7 / 10
  else if t = 4 then 1 / 2
  else 1 / 2

/-- The region-strength weight map `{high: 1.0, medium: 0.6, low: 0.3}`
with default 0.3. -/
def strengthWeight (s : String) : ℚ :=
  if s = "high" then 1
  else if s = "medium" then 3 / 5
  else 3 / 10

/-- Python's `round(x, 4)` over the idealized reals: round to the
nearest ten-thousandth, returned as a rational. -/
noncomputable def round4 (x : ℝ) : ℚ :=
  (round (x * 10000) : ℤ) / 10000

/-- `score_article`: 50% exponential recency decay with constant 0.05
per day of age, 25% region-match strength weight, 15% category priority,
10% source-tier reliability, rounded to 4 decimals. -/
noncomputable def scoreArticle (now : ℚ) (a : Article) (strength : String) : ℚ :=
  round4 ((1 / 2) * Real.exp (-(1 / 20) * max 0 ((now : ℝ) - (a.published : ℝ)))
    + (1 / 4) * (strengthWeight strength : ℝ)
    + (3 / 20) * (categoryPriority a.category : ℝ)
    + (1 / 10) * (sourceReliability a.tier : ℝ))

/-- A concrete globally-tagged article: relevant beverage text from a
global-scope feed that matches no region keyword, enriched by step 3. -/
def c1Article : Article :=
  enrichStep
    { title := "Beverage market update", url := "https://example.com/a",
      feedRegions := ["global"], tier := 1 }

/-! ### Publish-date parsing (`parse_date`)

`parse_date` tries an ordered list of `strptime` formats on the
stripped input, substitutes UTC when a matched format carries no
offset, and falls back to the run timestamp `NOW` when the string is
empty or no format matches.  Datetimes are records of calendar fields
plus an optional UTC offset in seconds (`none` = naive).  The field
parsing follows strptime's greedy digit widths, case-insensitive name
and literal matching, and whitespace runs, plus the range validation
performed by the `datetime` constructor; regex backtracking inside
malformed digit runs and fractional-second offsets are not modelled
(both only affect which malformed strings fall through to `NOW`).
-/

/-- A parsed datetime: calendar fields plus an optional UTC offset in
seconds (`none` models a naive datetime). -/
structure DT where
  year : Nat := 2000
  month : Nat := 1
  day : Nat := 1
  hour : Nat := 0
  minute : Nat := 0
  second : Nat := 0
  micro : Nat := 0
  tz : Option Int := none
deriving DecidableEq

/-- Greedily take up to `maxLen` leading digits (at least one),
returning value, digit count and rest. -/
def takeDigits (maxLen : Nat) (l : List Char) : Option (Nat × Nat × List Char) :=
  let ds := (l.takeWhile Char.isDigit).take maxLen
  if ds.length = 0 then none
  else some (ds.foldl (fun n c => n * 10 + (c.toNat - 48)) 0, ds.length, l.drop ds.length)

/-- Exactly `n` leading digits. -/
def takeDigitsExact (n : Nat) (l : List Char) : Option (Nat × List Char) :=
  match takeDigits n l with
  | some (v, k, rest) => if k = n then some (v, rest) else none
  | none => none

/-- Case-insensitive literal match (strptime compiles its regex with
IGNORECASE, so literal letters match both cases). -/
def expectCI (pat : String) (l : List Char) : Option (List Char) :=
  if lowerChars (l.take pat.data.length) = lowerChars pat.data then
    some (l.drop pat.data.length)
  else none

/-- Exact single character. -/
def expectChar (c : Char) : List Char → Option (List Char)
  | x :: rest => if x = c then some rest else none
  | [] => none

/-- One or more whitespace characters; whitespace in a strptime format
matches any whitespace run. -/
def skipSpaces1 (l : List Char) : Option (List Char) :=
  let l2 := l.dropWhile Char.isWhitespace
  if l2.length < l.length then some l2 else none

/-- Abbreviated weekday names recognized by `%a` in the C locale. -/
def WEEKDAY_ABBREVS : List String :=
  ["mon", "tue", "wed", "thu", "fri", "sat", "sun"]

/-- Abbreviated month names recognized by `%b` in the C locale. -/
def MONTH_ABBREVS : List String :=
  ["jan", "feb", "mar", "apr", "may", "jun", "jul", "aug", "sep", "oct", "nov", "dec"]

/-- Match a weekday abbreviation; the value is discarded, as strptime
never checks it against the date. -/
def parseWeekday (l : List Char) : Option (List Char) :=
  WEEKDAY_ABBREVS.findSome? fun w => expectCI w l

/-- Match a month abbreviation, returning its 1-based number. -/
def parseMonthName (l : List Char) : Option (Nat × List Char) :=
  (List.range 12).findSome? fun i =>
    match MONTH_ABBREVS.get? i with
    | some m => (expectCI m l).map fun rest => (i + 1, rest)
    | none => none

/-- The magnitude part of a `%z` offset: HH, optional colon, MM,
optional (optionally colon-separated) SS; result in seconds. -/
def parseTzMag (l : List Char) : Option (Int × List Char) :=
  match takeDigitsExact 2 l with
  | none => none
  | some (hh, r1) =>
    let r2 := match r1 with
      | ':' :: r => r
      | r => r
    match takeDigitsExact 2 r2 with
    | none => none
    | some (mm, r3) =>
      let base : Int := hh * 3600 + mm * 60
      match r3 with
      | ':' :: r4 =>
        match takeDigitsExact 2 r4 with
        | some (ss, r5) => some (base + ss, r5)
        | none => some (base, r3)
      | _ =>
        match takeDigitsExact 2 r3 with
        | some (ss, r5) => some (base + ss, r5)
        | none => some (base, r3)

/-- strptime's `%z`: a literal `Z` (UTC) or a signed offset. -/
def parseTzOffset (l : List Char) : Option (Int × List Char) :=
  match l with
  | 'Z' :: rest => some (0, rest)
  | '+' :: rest => (parseTzMag rest).map fun p => (p.1, p.2)
  | '-' :: rest => (parseTzMag rest).map fun p => (-p.1, p.2)
  | _ => none

/-- Leap years of the proleptic Gregorian calendar. -/
def isLeapYear (y : Nat) : Bool :=
  (y % 4 = 0 && !(y % 100 = 0)) || y % 400 = 0

/-- Days in a month. -/
def daysInMonth (y m : Nat) : Nat :=
  if m = 2 then (if isLeapYear y then 29 else 28)
  else if m = 4 ∨ m = 6 ∨ m = 9 ∨ m = 11 then 30
  else 31

/-- The validation performed by the `datetime` constructor (plus the
field ranges strptime's regexes enforce); a failure raises ValueError,
which `parse_date` turns into trying the next format. -/
def validDT (d : DT) : Bool :=
  decide (1 ≤ d.year) && decide (d.year ≤ 9999)
    && decide (1 ≤ d.month) && decide (d.month ≤ 12)
    && decide (1 ≤ d.day) && decide (d.day ≤ daysInMonth d.year d.month)
    && decide (d.hour ≤ 23) && decide (d.minute ≤ 59)
    && decide (d.second ≤ 59) && decide (d.micro ≤ 999999)

/-- Format `"%a, %d %b %Y %H:%M:%S %z"`. -/
def parseRfc822Tz (l : List Char) : Option DT := do
  let r1 ← parseWeekday l
  let r2 ← expectChar ',' r1
  let r3 ← skipSpaces1 r2
  let (d, _, r4) ← takeDigits 2 r3
  let r5 ← skipSpaces1 r4
  let (m, r6) ← parseMonthName r5
  let r7 ← skipSpaces1 r6
  let (y, r8) ← takeDigitsExact 4 r7
  let r9 ← skipSpaces1 r8
  let (hh, _, r10) ← takeDigits 2 r9
  let r11 ← expectChar ':' r10
  let (mi, _, r12) ← takeDigits 2 r11
  let r13 ← expectChar ':' r12
  let (ss, _, r14) ← takeDigits 2 r13
  let r15 ← skipSpaces1 r14
  let (off, r16) ← parseTzOffset r15
  if r16 = [] then
    some { year := y, month := m, day := d, hour := hh, minute := mi,
           second := ss, micro := 0, tz := some off }
  else none

/-- Format `"%a, %d %b %Y %H:%M:%S GMT"` — naive, no offset field. -/
def parseRfc822GMT (l : List Char) : Option DT := do
  let r1 ← parseWeekday l
  let r2 ← expectChar ',' r1
  let r3 ← skipSpaces1 r2
  let (d, _, r4) ← takeDigits 2 r3
  let r5 ← skipSpaces1 r4
  let (m, r6) ← parseMonthName r5
  let r7 ← skipSpaces1 r6
  let (y, r8) ← takeDigitsExact 4 r7
  let r9 ← skipSpaces1 r8
  let (hh, _, r10) ← takeDigits 2 r9
  let r11 ← expectChar ':' r10
  let (mi, _, r12) ← takeDigits 2 r11
  let r13 ← expectChar ':' r12
  let (ss, _, r14) ← takeDigits 2 r13
  let r15 ← skipSpaces1 r14
  let r16 ← expectCI "GMT" r15
  if r16 = [] then
    some { year := y, month := m, day := d, hour := hh, minute := mi,
           second := ss, micro := 0, tz := none }
  else none

/-- Format `"%Y-%m-%dT%H:%M:%S%z"`. -/
def parseIsoTz (l : List Char) : Option DT := do
  let (y, r1) ← takeDigitsExact 4 l
  let r2 ← expectChar '-' r1
  let (m, _, r3) ← takeDigits 2 r2
  let r4 ← expectChar '-' r3
  let (d, _, r5) ← takeDigits 2 r4
  let r6 ← expectCI "T" r5
  let (hh, _, r7) ← takeDigits 2 r6
  let r8 ← expectChar ':' r7
  let (mi, _, r9) ← takeDigits 2 r8
  let r10 ← expectChar ':' r9
  let (ss, _, r11) ← takeDigits 2 r10
  let (off, r12) ← parseTzOffset r11
  if r12 = [] then
    some { year := y, month := m, day := d, hour := hh, minute := mi,
           second := ss, micro := 0, tz := some off }
  else none

/-- Format `"%Y-%m-%dT%H:%M:%SZ"` — a literal Z, still naive. -/
def parseIsoZ (l : List Char) : Option DT := do
  let (y, r1) ← takeDigitsExact 4 l
  let r2 ← expectChar '-' r1
  let (m, _, r3) ← takeDigits 2 r2
  let r4 ← expectChar '-' r3
  let (d, _, r5) ← takeDigits 2 r4
  let r6 ← expectCI "T" r5
  let (hh, _, r7) ← takeDigits 2 r6
  let r8 ← expectChar ':' r7
  let (mi, _, r9) ← takeDigits 2 r8
  let r10 ← expectChar ':' r9
  let (ss, _, r11) ← takeDigits 2 r10
  let r12 ← expectCI "Z" r11
  if r12 = [] then
    some { year := y, month := m, day := d, hour := hh, minute := mi,
           second := ss, micro := 0, tz := none }
  else none

/-- Format `"%Y-%m-%dT%H:%M:%S.%f%z"`. -/
def parseIsoFracTz (l : List Char) : Option DT := do
  let (y, r1) ← takeDigitsExact 4 l
  let r2 ← expectChar '-' r1
  let (m, _, r3) ← takeDigits 2 r2
  let r4 ← expectChar '-' r3
  let (d, _, r5) ← takeDigits 2 r4
  let r6 ← expectCI "T" r5
  let (hh, _, r7) ← takeDigits 2 r6
  let r8 ← expectChar ':' r7
  let (mi, _, r9) ← takeDigits 2 r8
  let r10 ← expectChar ':' r9
  let (ss, _, r11) ← takeDigits 2 r10
  let r12 ← expectChar '.' r11
  let (f, k, r13) ← takeDigits 6 r12
  let (off, r14) ← parseTzOffset r13
  if r14 = [] then
    some { year := y, month := m, day := d, hour := hh, minute := mi,
           second := ss, micro := f * 10 ^ (6 - k), tz := some off }
  else none

/-- Format `"%d %b %Y %H:%M:%S %z"`. -/
def parseDayMonthTz (l : List Char) : Option DT := do
  let (d, _, r1) ← takeDigits 2 l
  let r2 ← skipSpaces1 r1
  let (m, r3) ← parseMonthName r2
  let r4 ← skipSpaces1 r3
  let (y, r5) ← takeDigitsExact 4 r4
  let r6 ← skipSpaces1 r5
  let (hh, _, r7) ← takeDigits 2 r6
  let r8 ← expectChar ':' r7
  let (mi, _, r9) ← takeDigits 2 r8
  let r10 ← expectChar ':' r9
  let (ss, _, r11) ← takeDigits 2 r10
  let r12 ← skipSpaces1 r11
  let (off, r13) ← parseTzOffset r12
  if r13 = [] then
    some { year := y, month := m, day := d, hour := hh, minute := mi,
           second := ss, micro := 0, tz := some off }
  else none

/-- The six formats tried by `parse_date`, in order. -/
inductive FmtId where
  | rfc822Tz
  | rfc822GMT
  | isoTz
  | isoZ
  | isoFracTz
  | dayMonthTz
deriving DecidableEq

/-- One `datetime.strptime(date_str, fmt)` attempt: parse, then apply
the constructor validation. -/
def tryParse (f : FmtId) (l : List Char) : Option DT :=
  let raw := match f with
    | .rfc822Tz => parseRfc822Tz l
    | .rfc822GMT => parseRfc822GMT l
    | .isoTz => parseIsoTz l
    | .isoZ => parseIsoZ l
    | .isoFracTz => parseIsoFracTz l
    | .dayMonthTz => parseDayMonthTz l
  match raw with
  | some d => if validDT d then some d else none
  | none => none

/-- The format list of `parse_date`, in source order. -/
def FORMATS : List FmtId :=
  [.rfc822Tz, .rfc822GMT, .isoTz, .isoZ, .isoFracTz, .dayMonthTz]

/-- `parse_date`: empty input falls back to `NOW`; otherwise the first
format that parses the stripped string wins, with UTC substituted when
the parsed value is naive; if none parses, fall back to `NOW`. -/
def parseDate (now : DT) (s : String) : DT :=
  if s = "" then now
  else
    match FORMATS.findSome? (fun f => tryParse f (trimChars s.data)) with
    | some dt => if dt.tz = none then { dt with tz := some 0 } else dt
    | none => now

/-! ### Feed entry extraction (`fetch_feed`)

The HTTP fetch, XML parse and their error path (return `([], err)` and
skip the feed) stand outside the per-entry logic; the embedding starts
from the parsed entry list.  An entry is a record of the optional tag
texts `fetch_feed` consults; `tagText` plays the role of the `get(tag)`
helper returning the stripped element text or the empty string.
-/

/-- An RSS/Atom entry as consulted by `fetch_feed`'s loop. -/
structure FeedEntry where
  title : Option String := none
  link : Option String := none
  atomLinkHref : Option String := none
  pubDate : Option String := none
  published : Option String := none
  updated : Option String := none
  description : Option String := none
  content : Option String := none
  summary : Option String := none
deriving DecidableEq

/-- A feed descriptor (name, reliability tier, declared regions). -/
structure FeedDesc where
  name : String := ""
  url : String := ""
  tier : Nat := 4
  regions : List String := []
deriving DecidableEq

/-- A raw item as produced by `fetch_feed`. -/
structure RawItem where
  title : String
  url : String
  summary : String
  published : DT
  source : String
  tier : Nat
  feedRegions : List String
deriving DecidableEq

/-- The `get(tag)` helper: the element's stripped text, or "" when the
element is missing or has no text. -/
def tagText (o : Option String) : String :=
  match o with
  | some s => String.mk (trimChars s.data)
  | none => ""

/-- Index of the first '>' in the list. -/
def idxOfGt : List Char → Option Nat
  | [] => none
  | c :: rest => if c = '>' then some 0 else (idxOfGt rest).map (· + 1)

/-- Replace each maximal `<[^>]+>` tag with a single space, as the
`re.sub` of `clean_html`; the fuel only bounds recursion depth and the
input length always suffices. -/
def stripTagsGo : Nat → List Char → List Char
  | 0, _ => []
  | _ + 1, [] => []
  | fuel + 1, c :: rest =>
    if c = '<' then
      match idxOfGt rest with
      | some n =>
        if 1 ≤ n then ' ' :: stripTagsGo fuel (rest.drop (n + 1))
        else c :: stripTagsGo fuel rest
      | none => c :: stripTagsGo fuel rest
    else c :: stripTagsGo fuel rest

/-- `clean_html`, on its regex fallback path (used when bs4 is absent):
strip tags, then strip surrounding whitespace. -/
def cleanHtml (raw : String) : String :=
  String.mk (trimChars (stripTagsGo raw.data.length raw.data))

/-- Index of the last space character, if any. -/
def lastSpaceIdxAux : List Char → Nat → Option Nat → Option Nat
  | [], _, acc => acc
  | c :: rest, i, acc => lastSpaceIdxAux rest (i + 1) (if c = ' ' then some i else acc)

/-- Index of the last space character of a list, if any. -/
def lastSpaceIdx (l : List Char) : Option Nat :=
  lastSpaceIdxAux l 0 none

/-- The description truncation: beyond 400 characters, cut at 397, drop
the trailing partial word at the last space (`rsplit(" ", 1)[0]`), and
append an ellipsis. -/
def truncateDesc (s : List Char) : List Char :=
  if 400 < s.length then
    let t := s.take 397
    (match lastSpaceIdx t with
      | some i => t.take i
      | none => t) ++ ['…']
  else s

/-- One iteration of `fetch_feed`'s entry loop: field extraction with
`or` fallbacks (title, link with the atom href fallback, publish date
through `parse_date`, cleaned and truncated description).  Nothing is
dropped: every entry yields an item. -/
def toRawItem (now : DT) (feed : FeedDesc) (e : FeedEntry) : RawItem :=
  let link0 := tagText e.link
  let link := if link0 = "" then
      (match e.atomLinkHref with
        | some h => h
        | none => "")
    else link0
  let pubStr :=
    if tagText e.pubDate ≠ "" then tagText e.pubDate
    else if tagText e.published ≠ "" then tagText e.published
    else tagText e.updated
  let desc0 :=
    if tagText e.description ≠ "" then tagText e.description
    else if tagText e.content ≠ "" then tagText e.content
    else tagText e.summary
  { title := tagText e.title,
    url := link,
    summary := String.mk (truncateDesc (cleanHtml desc0).data),
    published := parseDate now pubStr,
    source := feed.name,
    tier := feed.tier,
    feedRegions := feed.regions }

/-- The entry loop of `fetch_feed` over already-parsed XML entries. -/
def fetchFeedItems (now : DT) (feed : FeedDesc) (entries : List FeedEntry) : List RawItem :=
  entries.map (toRawItem now feed)

/-! ## Theorems -/

/-- C1: evaluation of the bucketing stage at a failing input.  The
enrichment assigns the sentinel ["global"] to this article, yet the
bucket construction of step 4 places it in no configured region's
candidate pool — it lands only in the `global_articles` list, which the
rest of `run_pipeline` never reads — contradicting the specified fan-out
of global items to every region. -/
theorem c1_global_dropped :
    c1Article.assignedRegions = ["global"]
      ∧ (REGION_IDS.all fun r => ((bucketize [c1Article]).1 r).isEmpty) = true
      ∧ (bucketize [c1Article]).2 = [c1Article] := by
  refine ⟨by decide, by decide, by decide⟩

/-- Invariant of the deduplication loop: the accepted articles are
pairwise distinct in normalized URL and pairwise title-dissimilar, no
accepted URL was previously seen, and every accepted title is
dissimilar from every previously seen title. -/
theorem dedupGo_invariant (l : List Article) :
    ∀ (su : List String) (st : List (List Char)),
      (dedupGo l su st).Pairwise
          (fun x y => normalizeUrl x.url ≠ normalizeUrl y.url
            ∧ titleSimilarity (titleKey y) (titleKey x) ≤ 4 / 5)
        ∧ ∀ x ∈ dedupGo l su st,
            normalizeUrl x.url ∉ su
              ∧ ∀ prev ∈ st, titleSimilarity (titleKey x) prev ≤ 4 / 5 := by
  induction l with
  | nil => intro su st; simp [dedupGo]
  | cons a rest ih =>
    intro su st
    simp only [dedupGo]
    split_ifs with h1 h2
    · exact ih su st
    · obtain ⟨hp, hm⟩ := ih (normalizeUrl a.url :: su) st
      exact ⟨hp, fun x hx =>
        ⟨fun hmem => (hm x hx).1 (List.mem_cons_of_mem _ hmem), (hm x hx).2⟩⟩
    · obtain ⟨hp, hm⟩ := ih (normalizeUrl a.url :: su) (st ++ [titleKey a])
      refine ⟨List.pairwise_cons.mpr ⟨fun y hy => ?_, hp⟩, fun x hx => ?_⟩
      · refine ⟨fun he => (hm y hy).1 (he ▸ List.mem_cons_self _ _), ?_⟩
        exact (hm y hy).2 (titleKey a) (by simp)
      · rcases List.mem_cons.mp hx with rfl | hx2
        · refine ⟨h1, fun prev hp2 => ?_⟩
          exact le_of_not_lt fun hlt => h2 ⟨prev, hp2, hlt⟩
        · exact ⟨fun hmem => (hm x hx2).1 (List.mem_cons_of_mem _ hmem),
            fun prev hp2 => (hm x hx2).2 prev (List.mem_append_left _ hp2)⟩

/-- C2: any two distinct articles surviving `deduplicate` have distinct
normalized URLs, and the similarity ratio of the later survivor's
lower-cased stripped title against the earlier one's is at most 0.8. -/
theorem c2_dedup_pairwise (articles : List Article) :
    (deduplicate articles).Pairwise
      (fun x y => normalizeUrl x.url ≠ normalizeUrl y.url
        ∧ titleSimilarity (titleKey y) (titleKey x) ≤ 4 / 5) :=
  (dedupGo_invariant articles [] []).1

/-- C3 counterexample: the sort-and-cap stage orders purely by
descending score, so a low-strength article with a higher score
precedes a high-strength article with a lower score — the output is not
grouped into high/medium/low strength buckets.  The two scores are
values the composite formula produces (a fresh low-strength tier-1
regulatory article scores 0.825; a 40-day-old high-strength tier-4
macro article scores 0.4277). -/
theorem c3_counterexample :
    sortScoreCap
        [{ title := "B", regionMatch := "high", score := 4277 / 10000 },
         { title := "A", regionMatch := "low", score := 33 / 40 }]
      = [{ title := "A", regionMatch := "low", score := 33 / 40 },
         { title := "B", regionMatch := "high", score := 4277 / 10000 }]
      ∧ (4277 : ℚ) / 10000 < 33 / 40 := by
  have hn : ¬ scoreDescRel
      { title := "B", regionMatch := "high", score := 4277 / 10000 }
      { title := "A", regionMatch := "low", score := 33 / 40 } := by
    simp only [scoreDescRel]
    norm_num
  constructor
  · simp [sortScoreCap, List.insertionSort, List.orderedInsert, hn]
  · norm_num

/-- C3 (amended): the per-region output is sorted by descending score
alone (no strength-bucket grouping) and truncated to the first 50
articles after that ordering. -/
theorem c3_sorted_capped (l : List Article) :
    (sortScoreCap l).Sorted scoreDescRel
      ∧ (sortScoreCap l).length = min 50 l.length := by
  constructor
  · exact List.Pairwise.sublist (List.take_sublist _ _)
      (List.sorted_insertionSort scoreDescRel l)
  · simp [sortScoreCap, List.length_take, List.length_insertionSort]

/-- C4: for an article surviving the window step, the confidence label
is "high" exactly when it is inside the primary window with non-low
region strength; otherwise it is "low" when the fallback window was
used and "medium" when it was not. -/
theorem c4_confidence (now : ℚ) (l : List Article) (rid : String) (a : Article)
    (_ha : a ∈ (windowSelect now l).1) :
    (confidenceLabel now a.published (regionStrength rid (articleText a))
          (windowSelect now l).2 = "high"
        ↔ CUTOFF now ≤ a.published ∧ regionStrength rid (articleText a) ≠ "low")
      ∧ (¬(CUTOFF now ≤ a.published ∧ regionStrength rid (articleText a) ≠ "low") →
          confidenceLabel now a.published (regionStrength rid (articleText a))
              (windowSelect now l).2
            = if (windowSelect now l).2 then "low" else "medium") := by
  have htri : regionStrength rid (articleText a) = "high"
      ∨ regionStrength rid (articleText a) = "medium"
      ∨ regionStrength rid (articleText a) = "low" := by
    unfold regionStrength
    split_ifs <;> simp
  have hne : regionStrength rid (articleText a) ≠ "low"
      ↔ (regionStrength rid (articleText a) = "high"
          ∨ regionStrength rid (articleText a) = "medium") := by
    rcases htri with h | h | h <;> simp [h]
  constructor
  · unfold confidenceLabel
    split_ifs with hc
    · exact iff_of_true rfl ⟨hc.1, hne.mpr hc.2⟩
    · exact iff_of_false (by decide) fun hx => hc ⟨hx.1, hne.mp hx.2⟩
    · exact iff_of_false (by decide) fun hx => hc ⟨hx.1, hne.mp hx.2⟩
  · intro hn
    unfold confidenceLabel
    rw [if_neg fun hC => hn ⟨hC.1, hne.mpr hC.2⟩]

/-- C4 witness: a fresh article with two austria keyword hits, in a
region bucket small enough to trigger the fallback, is labeled "high". -/
theorem c4_confidence_witness :
    confidenceLabel 0 (-5)
        (regionStrength "austria"
          (articleText { title := "Vienna wien beverage", published := -5 }))
        (windowSelect 0 [{ title := "Vienna wien beverage", published := -5 }]).2
      = "high" := by
  have hmem : ({ title := "Vienna wien beverage", published := -5 } : Article)
      ∈ (windowSelect 0 [{ title := "Vienna wien beverage", published := -5 }]).1 := by
    have hq : FALLBACK_CUTOFF 0
        ≤ ({ title := "Vienna wien beverage", published := -5 } : Article).published := by
      norm_num [FALLBACK_CUTOFF, FALLBACK_DAYS]
    have hc : CUTOFF 0 ≤ (-5 : ℚ) := by
      norm_num [CUTOFF, WINDOW_DAYS]
    simp [windowSelect, List.filter, MIN_ITEMS, hq, hc]
  have h := c4_confidence 0 [{ title := "Vienna wien beverage", published := -5 }]
    "austria" { title := "Vienna wien beverage", published := -5 } hmem
  refine h.1.mpr ⟨?_, ?_⟩
  · norm_num [CUTOFF, WINDOW_DAYS]
  · decide

/-- C5: when fewer than `MIN_ITEMS` deduplicated articles lie in the
primary 28-day window, the fallback flag is set and the surviving set
is the 42-day filter; and the surviving set is never smaller than the
primary-window set. -/
theorem c5_window_fallback (now : ℚ) (articles : List Article) :
    (((deduplicate articles).filter fun a =>
          decide (CUTOFF now ≤ a.published)).length < MIN_ITEMS →
        windowSelect now (deduplicate articles)
          = ((deduplicate articles).filter fun a =>
              decide (FALLBACK_CUTOFF now ≤ a.published), true))
      ∧ ((deduplicate articles).filter fun a =>
            decide (CUTOFF now ≤ a.published)).length
          ≤ (windowSelect now (deduplicate articles)).1.length := by
  have himp : ∀ a : Article, decide (CUTOFF now ≤ a.published) = true →
      decide (FALLBACK_CUTOFF now ≤ a.published) = true := by
    intro a hc
    rw [decide_eq_true_eq] at hc ⊢
    have hw : FALLBACK_CUTOFF now ≤ CUTOFF now := by
      unfold FALLBACK_CUTOFF CUTOFF FALLBACK_DAYS WINDOW_DAYS
      linarith
    linarith
  constructor
  · intro h
    simp only [windowSelect, if_pos h]
  · by_cases h : ((deduplicate articles).filter fun a =>
        decide (CUTOFF now ≤ a.published)).length < MIN_ITEMS
    · simp only [windowSelect, if_pos h]
      exact (List.monotone_filter_right _ himp).length_le
    · simp only [windowSelect, if_neg h]
      exact le_rfl

/-- C5 witness: a single 35-day-old article misses the primary window
(0 items, below threshold) but survives via the 42-day fallback. -/
theorem c5_window_fallback_witness :
    windowSelect 0 (deduplicate [{ published := -35 }])
      = ([({ published := -35 } : Article)], true) := by
  have hd : deduplicate [({ published := -35 } : Article)]
      = [{ published := -35 }] := by
    simp [deduplicate, dedupGo]
  have hcut : ¬ CUTOFF 0 ≤ ({ published := -35 } : Article).published := by
    norm_num [CUTOFF, WINDOW_DAYS]
  have hfall : FALLBACK_CUTOFF 0 ≤ ({ published := -35 } : Article).published := by
    norm_num [FALLBACK_CUTOFF, FALLBACK_DAYS]
  have hlen : ((deduplicate [({ published := -35 } : Article)]).filter fun a =>
      decide (CUTOFF 0 ≤ a.published)).length < MIN_ITEMS := by
    rw [hd]
    simp [List.filter, hcut, MIN_ITEMS]
  have h := (c5_window_fallback 0 [{ published := -35 }]).1 hlen
  rw [h, hd]
  simp [List.filter, hfall]

/-- Rounding to the nearest integer is monotone. -/
theorem round_mono_real {x y : ℝ} (h : x ≤ y) : round x ≤ round y := by
  rw [round_eq, round_eq]
  exact Int.floor_mono (by linarith)

/-- The value of `round` from a half-unit bracket. -/
theorem round_real_eq_of {x : ℝ} {n : ℤ} (h1 : (n : ℝ) - 1 / 2 ≤ x)
    (h2 : x < (n : ℝ) + 1 / 2) : round x = n := by
  rw [round_eq]
  exact Int.floor_eq_iff.mpr ⟨by linarith, by linarith⟩

/-- round4 is monotone. -/
theorem round4_mono {x y : ℝ} (h : x ≤ y) : round4 x ≤ round4 y := by
  unfold round4
  have hr : round (x * 10000) ≤ round (y * 10000) :=
    round_mono_real (by nlinarith)
  have hq : ((round (x * 10000) : ℤ) : ℚ) ≤ ((round (y * 10000) : ℤ) : ℚ) := by
    exact_mod_cast hr
  linarith

/-- The value of round4 from a half-ten-thousandth bracket. -/
theorem round4_eq {x : ℝ} {n : ℤ} (h1 : (n : ℝ) - 1 / 2 ≤ x * 10000)
    (h2 : x * 10000 < (n : ℝ) + 1 / 2) : round4 x = (n : ℚ) / 10000 := by
  unfold round4
  rw [round_real_eq_of h1 h2]

/-- round4 of a nonnegative real is nonnegative. -/
theorem round4_nonneg {x : ℝ} (h : 0 ≤ x) : 0 ≤ round4 x := by
  have h0 : round4 0 = 0 / 10000 := round4_eq (by norm_num) (by norm_num)
  have := round4_mono h
  rw [h0] at this
  simpa using this

/-- round4 of a real at most 1 is at most 1. -/
theorem round4_le_one {x : ℝ} (h : x ≤ 1) : round4 x ≤ 1 := by
  have h1 : round4 1 = (10000 : ℤ) / 10000 := round4_eq (by norm_num) (by norm_num)
  have := round4_mono h
  rw [h1] at this
  simpa using this

/-- The strength weight lies in [0.3, 1]. -/
theorem strengthWeight_bounds (s : String) :
    3 / 10 ≤ strengthWeight s ∧ strengthWeight s ≤ 1 := by
  unfold strengthWeight
  split_ifs <;> norm_num

/-- The category priority lies in [0.4, 1]. -/
theorem categoryPriority_bounds (c : String) :
    2 / 5 ≤ categoryPriority c ∧ categoryPriority c ≤ 1 := by
  unfold categoryPriority
  split_ifs <;> norm_num

/-- The source reliability lies in [0.5, 1]. -/
theorem sourceReliability_bounds (t : Nat) :
    1 / 2 ≤ sourceReliability t ∧ sourceReliability t ≤ 1 := by
  unfold sourceReliability
  split_ifs <;> norm_num

/-- C6 counterexample to strict decrease in age: a fresh low-strength
tier-1 regulatory article and one aged 1/1000 of a day receive the same
rounded score (0.825), because the unrounded difference is below the
4-decimal rounding granularity — so the score is not strictly
decreasing in age. -/
theorem c6_counterexample :
    (-1 / 1000 : ℚ) < 0
      ∧ scoreArticle 0 { published := -1 / 1000, category := "regulatory", tier := 1 } "low"
        = scoreArticle 0 { published := 0, category := "regulatory", tier := 1 } "low" := by
  have hb : ∀ p : ℚ,
      scoreArticle 0 { published := p, category := "regulatory", tier := 1 } "low"
        = round4 ((1 / 2) * Real.exp (-(1 / 20) * max 0 (0 - (p : ℝ)))
            + (1 / 4) * (3 / 10) + (3 / 20) * 1 + (1 / 10) * 1) := by
    intro p
    unfold scoreArticle
    norm_num [show strengthWeight "low" = 3 / 10 from rfl, categoryPriority,
      sourceReliability]
  constructor
  · norm_num
  · rw [hb, hb]
    have hm1 : max (0 : ℝ) (0 - ((0 : ℚ) : ℝ)) = 0 := by norm_num
    have hm2 : max (0 : ℝ) (0 - ((-1 / 1000 : ℚ) : ℝ)) = 1 / 1000 := by
      rw [show ((-1 / 1000 : ℚ) : ℝ) = -1 / 1000 by push_cast; ring]
      norm_num
    have hE1 : round4 ((1 / 2) * Real.exp (-(1 / 20) * max 0 (0 - ((0 : ℚ) : ℝ)))
        + (1 / 4) * (3 / 10) + (3 / 20) * 1 + (1 / 10) * 1) = ((8250 : ℤ) : ℚ) / 10000 := by
      rw [hm1]
      rw [show (-(1 / 20) * (0 : ℝ)) = 0 by ring, Real.exp_zero]
      exact round4_eq (by norm_num) (by norm_num)
    have hub : Real.exp (-(1 / 20) * (1 / 1000 : ℝ)) ≤ 1 := by
      calc Real.exp (-(1 / 20) * (1 / 1000 : ℝ)) ≤ Real.exp 0 :=
            Real.exp_le_exp.mpr (by norm_num)
        _ = 1 := Real.exp_zero
    have hlb : 1 - 1 / 20000 ≤ Real.exp (-(1 / 20) * (1 / 1000 : ℝ)) := by
      have h := Real.add_one_le_exp (-(1 / 20) * (1 / 1000 : ℝ))
      nlinarith
    have hE2 : round4 ((1 / 2) * Real.exp (-(1 / 20) * max 0 (0 - ((-1 / 1000 : ℚ) : ℝ)))
        + (1 / 4) * (3 / 10) + (3 / 20) * 1 + (1 / 10) * 1) = ((8250 : ℤ) : ℚ) / 10000 := by
      rw [hm2]
      exact round4_eq (by nlinarith) (by nlinarith)
    rw [hE1, hE2]

/-- C6 (amended): the rounded composite score always lies in [0, 1],
and holding strength, category and tier fixed it is non-increasing in
age (strict decrease holds for the unrounded sum but the 4-decimal
rounding can equate nearby ages). -/
theorem c6_score_bounds_antitone (now : ℚ) (a : Article) (s : String) (p1 p2 : ℚ) :
    (0 ≤ scoreArticle now a s ∧ scoreArticle now a s ≤ 1)
      ∧ (p2 ≤ p1 →
          scoreArticle now { a with published := p2 } s
            ≤ scoreArticle now { a with published := p1 } s) := by
  have hsw := strengthWeight_bounds s
  have hcp := categoryPriority_bounds a.category
  have hsr := sourceReliability_bounds a.tier
  have hswR : (3 / 10 : ℝ) ≤ (strengthWeight s : ℝ) ∧ (strengthWeight s : ℝ) ≤ 1 := by
    constructor
    · have h2 : ((3 / 10 : ℚ) : ℝ) ≤ ((strengthWeight s : ℚ) : ℝ) := Rat.cast_le.mpr hsw.1
      push_cast at h2
      linarith
    · have h2 : ((strengthWeight s : ℚ) : ℝ) ≤ ((1 : ℚ) : ℝ) := Rat.cast_le.mpr hsw.2
      push_cast at h2
      linarith
  have hcpR : (2 / 5 : ℝ) ≤ (categoryPriority a.category : ℝ)
      ∧ (categoryPriority a.category : ℝ) ≤ 1 := by
    constructor
    · have h2 : ((2 / 5 : ℚ) : ℝ) ≤ ((categoryPriority a.category : ℚ) : ℝ) :=
        Rat.cast_le.mpr hcp.1
      push_cast at h2
      linarith
    · have h2 : ((categoryPriority a.category : ℚ) : ℝ) ≤ ((1 : ℚ) : ℝ) :=
        Rat.cast_le.mpr hcp.2
      push_cast at h2
      linarith
  have hsrR : (1 / 2 : ℝ) ≤ (sourceReliability a.tier : ℝ)
      ∧ (sourceReliability a.tier : ℝ) ≤ 1 := by
    constructor
    · have h2 : ((1 / 2 : ℚ) : ℝ) ≤ ((sourceReliability a.tier : ℚ) : ℝ) :=
        Rat.cast_le.mpr hsr.1
      push_cast at h2
      linarith
    · have h2 : ((sourceReliability a.tier : ℚ) : ℝ) ≤ ((1 : ℚ) : ℝ) :=
        Rat.cast_le.mpr hsr.2
      push_cast at h2
      linarith
  refine ⟨⟨?_, ?_⟩, ?_⟩
  · unfold scoreArticle
    apply round4_nonneg
    have hexp := Real.exp_pos (-(1 / 20) * max 0 ((now : ℝ) - (a.published : ℝ)))
    nlinarith [hswR.1, hcpR.1, hsrR.1]
  · unfold scoreArticle
    apply round4_le_one
    have harg : -(1 / 20 : ℝ) * max 0 ((now : ℝ) - (a.published : ℝ)) ≤ 0 := by
      have h0 := le_max_left (0 : ℝ) ((now : ℝ) - (a.published : ℝ))
      nlinarith
    have hexp1 : Real.exp (-(1 / 20) * max 0 ((now : ℝ) - (a.published : ℝ))) ≤ 1 := by
      calc Real.exp (-(1 / 20) * max 0 ((now : ℝ) - (a.published : ℝ)))
          ≤ Real.exp 0 := Real.exp_le_exp.mpr harg
        _ = 1 := Real.exp_zero
    have hexp0 := Real.exp_pos (-(1 / 20) * max 0 ((now : ℝ) - (a.published : ℝ)))
    nlinarith [hswR.2, hcpR.2, hsrR.2]
  · intro h
    unfold scoreArticle
    dsimp only
    apply round4_mono
    have hcast : ((p2 : ℚ) : ℝ) ≤ ((p1 : ℚ) : ℝ) := by exact_mod_cast h
    have hsub : (now : ℝ) - (p1 : ℝ) ≤ (now : ℝ) - (p2 : ℝ) := by linarith
    have hmax : max 0 ((now : ℝ) - (p1 : ℝ)) ≤ max 0 ((now : ℝ) - (p2 : ℝ)) :=
      max_le_max le_rfl hsub
    have harg : -(1 / 20 : ℝ) * max 0 ((now : ℝ) - (p2 : ℝ))
        ≤ -(1 / 20) * max 0 ((now : ℝ) - (p1 : ℝ)) := by nlinarith
    have hexp := Real.exp_le_exp.mpr harg
    linarith

/-- C6 witness: a one-day-older article with equal strength, category
and tier scores no higher than the fresh one. -/
theorem c6_score_witness :
    scoreArticle 0 { published := -1 } "low" ≤ scoreArticle 0 { published := 0 } "low" := by
  have h := c6_score_bounds_antitone 0 {} "low" 0 (-1)
  exact h.2 (by norm_num)

/-- C7 counterexample: an entry with no title and no link is not
dropped by the fetcher; it yields an output item whose title and URL
are both the empty string. -/
theorem c7_counterexample :
    fetchFeedItems { year := 2025, month := 10, day := 1, tz := some 0 } {} [{}]
      = [{ title := "", url := "", summary := "",
           published := { year := 2025, month := 10, day := 1, tz := some 0 },
           source := "", tier := 4, feedRegions := [] }] := by
  decide

/-- C7 (amended): the fetcher's entry loop drops nothing — it yields
exactly one output item per parsed entry, with missing title or link
becoming empty-string fields. -/
theorem c7_no_entry_dropped (now : DT) (feed : FeedDesc) (entries : List FeedEntry) :
    (fetchFeedItems now feed entries).length = entries.length := by
  simp [fetchFeedItems]

/-- C10: `parse_date` is total and always timezone-aware (given the
aware run timestamp `now`): the empty string yields `now`; a string no
format parses yields `now`; a parse carrying no offset gets UTC
substituted; and in every case the result carries an offset. -/
theorem c10_parse_date_total (now : DT) (hn : now.tz ≠ none) (s : String) :
    (parseDate now s).tz ≠ none
      ∧ (s = "" → parseDate now s = now)
      ∧ ((∀ f ∈ FORMATS, tryParse f (trimChars s.data) = none) → parseDate now s = now)
      ∧ (∀ dt, FORMATS.findSome? (fun f => tryParse f (trimChars s.data)) = some dt →
          dt.tz = none → parseDate now s = { dt with tz := some 0 }) := by
  refine ⟨?_, ?_, ?_, ?_⟩
  · unfold parseDate
    split_ifs with h1
    · exact hn
    · cases hfs : FORMATS.findSome? (fun f => tryParse f (trimChars s.data)) with
      | none => simpa [hfs] using hn
      | some dt =>
        simp only [hfs]
        split_ifs with h2
        · simp
        · exact h2
  · intro h
    simp [parseDate, h]
  · intro hall
    have hnone : FORMATS.findSome? (fun f => tryParse f (trimChars s.data)) = none :=
      List.findSome?_eq_none_iff.mpr hall
    unfold parseDate
    split_ifs with h1
    · rfl
    · simp [hnone]
  · intro dt heq htz
    unfold parseDate
    split_ifs with h1
    · subst h1
      rw [show FORMATS.findSome? (fun f => tryParse f (trimChars "".data)) = none
        from by decide] at heq
      exact absurd heq (by simp)
    · simp [heq, htz]

/-- C10 witness: an unparseable non-empty string falls back to the run
timestamp. -/
theorem c10_parse_date_witness :
    parseDate { year := 2025, tz := some 0 } "not-a-date"
      = { year := 2025, tz := some 0 } := by
  have h := c10_parse_date_total { year := 2025, tz := some 0 } (by decide) "not-a-date"
  exact h.2.2.1 (by decide)

/-- C8 counterexample: the claim attributes the relevance rejection of
"Australian wine exports rise" to a hard-exclusion term "wine", but
"wine" is not in the `EXCLUSIONS` table, and a text containing "wine"
together with an inclusion keyword is accepted by the filter — so "wine"
is not a hard exclusion, regardless of region. -/
theorem c8_counterexample :
    EXCLUSIONS.contains "wine" = false
      ∧ isBeverageRelevant "French wine drink launch" = true := by
  constructor
  · decide
  · decide

/-- C8 (amended): for "Australian wine exports rise", the austria
region's negative keyword "australia" occurs in the text (its check runs
first in `assign_region` and skips the region), and austria is not
keyword-matched; the relevance filter rejects the text, but because no
inclusion keyword occurs — no exclusion term occurs in the text at all. -/
theorem c8_scenario :
    ((lookupD REGIONS "austria" {}).negative.any fun neg =>
          strContains (lowerChars "Australian wine exports rise".data) neg.data) = true
      ∧ "austria" ∉ matchedRegions "Australian wine exports rise"
      ∧ assignRegion "Australian wine exports rise" ["global"] = ["global"]
      ∧ isBeverageRelevant "Australian wine exports rise" = false
      ∧ (EXCLUSIONS.all fun ex =>
          !(strContains (lowerChars "Australian wine exports rise".data) ex.data)) = true
      ∧ (BEVERAGE_KEYWORDS.all fun kw =>
          !(strContains (lowerChars "Australian wine exports rise".data) kw.data)) = true := by
  refine ⟨by decide, by decide, by decide, by decide, by decide, by decide⟩

/-- C9: `assign_region` always returns a non-empty list — the keyword
matches when there are any; else, for a non-global feed whose declared
regions meet the configured ones, that restriction; else the singleton
global sentinel. -/
theorem c9_assign_region_total (text : String) (feedRegions : List String) :
    assignRegion text feedRegions ≠ []
      ∧ (matchedRegions text ≠ [] → assignRegion text feedRegions = matchedRegions text)
      ∧ (matchedRegions text = [] → feedRegions ≠ ["global"] →
          feedRegions.filter (fun r => REGIONS.any fun p => decide (p.1 = r)) ≠ [] →
          assignRegion text feedRegions
            = feedRegions.filter fun r => REGIONS.any fun p => decide (p.1 = r))
      ∧ (matchedRegions text = [] →
          (feedRegions = ["global"]
            ∨ feedRegions.filter (fun r => REGIONS.any fun p => decide (p.1 = r)) = []) →
          assignRegion text feedRegions = ["global"]) := by
  by_cases hm : matchedRegions text = []
  · by_cases hf : feedRegions = ["global"]
    · simp [assignRegion, hm, hf]
    · by_cases hr : feedRegions.filter (fun r => REGIONS.any fun p => decide (p.1 = r)) = []
      · simp [assignRegion, hm, hf, hr]
      · simp [assignRegion, hm, hf, hr]
  · simp [assignRegion, hm]

/-- C9 witness: a feed declaring only the configured region "usa", with
text matching no region keyword, is assigned exactly ["usa"]. -/
theorem c9_witness : assignRegion "beverage news" ["usa"] = ["usa"] := by
  have h := c9_assign_region_total "beverage news" ["usa"]
  have hr := h.2.2.1 (by decide) (by decide) (by decide)
  exact hr.trans (by decide)

end SalesPipeline
